import Mathlib

/-!
Shallow embedding of
src/vs/workbench/services/lifecycle/electron-browser/lifecycleService.ts:
the workbench LifecycleService (shutdown-veto aggregation, persisted
shutdown-reason handling, startup-kind classification).
-/

namespace Lifecycle

/-- Modelled from the spec: the enumeration
ShutdownReason of vs/platform/lifecycle/common/lifecycle is not under src/;
the spec lists its members (Quit, WindowClose, WindowReload, WindowLoad)
and says it is a numeric enum. -/
inductive ShutdownReason where
  | CLOSE
  | QUIT
  | RELOAD
  | LOAD
deriving DecidableEq, Repr

/-- Modelled from the spec: the numeric value of each ShutdownReason member
(a numeric TypeScript enum, values 1..4 in declaration order). -/
def reasonCode : ShutdownReason → Nat
  | ShutdownReason.CLOSE => 1
  | ShutdownReason.QUIT => 2
  | ShutdownReason.RELOAD => 3
  | ShutdownReason.LOAD => 4

/-- Modelled from the spec: the enumeration StartupKind of
vs/platform/lifecycle/common/lifecycle (NewWindow, ReloadedWindow,
ReopenedWindow) is not under src/. -/
inductive StartupKind where
  | NewWindow
  | ReloadedWindow
  | ReopenedWindow
deriving DecidableEq, Repr

/-- Modelled from the spec: the severity levels accepted by the
error-reporting sink (IMessageService); only Error is used here. -/
inductive Severity where
  | Ignore
  | Info
  | Warning
  | Error
deriving DecidableEq, Repr

deriving instance DecidableEq for Except

/-- One objection pushed by a listener through the veto capability:
either an immediate boolean or a deferred computation (a TPromise) whose
eventual settlement is a boolean or a failure.  The deferred case carries
the settlement the promise eventually reaches. -/
inductive Veto where
  | immediate : Bool → Veto
  | deferred : Except String Bool → Veto
deriving DecidableEq, Repr

/-- The deferred settlements of an objection list, in list order
(the promises a full join would wait on). -/
def deferredSettlements (vetos : List Veto) : List (Except String Bool) :=
  vetos.filterMap fun v =>
    match v with
    | Veto.deferred p => some p
    | Veto.immediate _ => none

/-- The scan loop of onBeforeUnload over the objection list: walks the list
in order; an immediate true returns early (none = short-circuit, the
function resolves without joining any promise); otherwise the promises
pushed for the deferred objections are accumulated (some promises). -/
def collectPromises : List Veto → Option (List (Except String Bool))
  | [] => some []
  | Veto.immediate true :: _ => none
  | Veto.immediate false :: rest => collectPromises rest
  | Veto.deferred p :: rest => (collectPromises rest).map (p :: ·)

/-- One settled promise of the join: the success handler sets lazyValue on a
true value; the error handler shows the error with severity Error through
the message service and sets lazyValue (error treated like a veto).
The accumulator is (lazyValue, messages shown so far). -/
def joinStep (acc : Bool × List (Severity × String)) (p : Except String Bool) :
    Bool × List (Severity × String) :=
  match p with
  | Except.ok value => (acc.1 || value, acc.2)
  | Except.error err => (true, acc.2 ++ [(Severity.Error, err)])

/-- TPromise.join over the pushed promises, starting from lazyValue = false
and no message shown; settlement order is modelled as list order. -/
def settle (promises : List (Except String Bool)) :
    Bool × List (Severity × String) :=
  promises.foldl joinStep (false, [])

/-- The value onBeforeUnload resolves to, together with the promises its
resolution joined (awaited) and the messages shown to the error sink as
part of that resolution.  The function is total: a failing deferred
objection is absorbed by its error handler, never re-thrown. -/
structure ResolveOutcome where
  result : Bool
  awaited : List (Except String Bool)
  reported : List (Severity × String)
deriving DecidableEq, Repr

/-- LifecycleService.onBeforeUnload, given the objection list the
onWillShutdown broadcast accumulated: empty list resolves to false; an
immediate true in the scan resolves to true at once without joining any
promise; otherwise every pushed promise is joined and the lazyValue is
returned. -/
def onBeforeUnload (vetos : List Veto) : ResolveOutcome :=
  if vetos.isEmpty then
    { result := false, awaited := [], reported := [] }
  else
    match collectPromises vetos with
    | none => { result := true, awaited := [], reported := [] }
    | some promises =>
      let s := settle promises
      { result := s.1, awaited := promises, reported := s.2 }

/-- The mutable state of the service the beforeUnload handler touches:
the _willShutdown flag and the value stored under
lifecyle.lastShutdownReason in the workspace-scoped store (none = key
absent). -/
structure LifecycleState where
  willShutdown : Bool
  store : Option String
deriving DecidableEq, Repr

/-- Modelled from the spec: JSON.stringify applied to a numeric enum value
(the JavaScript runtime is not under src/) produces its decimal string. -/
def stringifyReason (reason : ShutdownReason) : String :=
  Nat.repr (reasonCode reason)

/-- The numeric value of one decimal digit character, none otherwise. -/
def digitValue (c : Char) : Option Nat :=
  if c = '0' then some 0
  else if c = '1' then some 1
  else if c = '2' then some 2
  else if c = '3' then some 3
  else if c = '4' then some 4
  else if c = '5' then some 5
  else if c = '6' then some 6
  else if c = '7' then some 7
  else if c = '8' then some 8
  else if c = '9' then some 9
  else none

/-- Accumulating pass over the characters of a decimal numeral. -/
def parseDecimalAux : List Char → Nat → Option Nat
  | [], acc => some acc
  | c :: cs, acc =>
    match digitValue c with
    | some d => parseDecimalAux cs (acc * 10 + d)
    | none => none

/-- Parse a nonempty all-digit string as a decimal natural number. -/
def parseDecimal (s : String) : Option Nat :=
  match s.data with
  | [] => none
  | cs => parseDecimalAux cs 0

/-- Modelled from the spec: StorageService.getInteger
(vs/platform/storage is not under src/) reads the stored string for the
key, absent giving no value, and parses it as an integer. -/
def getInteger (stored : Option String) : Option Nat :=
  stored.bind parseDecimal

/-- The first two statements of the beforeUnload handler: the request is
accepted, _willShutdown is set and the reason is persisted under the
workspace-scoped key. -/
def acceptRequest (st : LifecycleState) (reason : ShutdownReason) :
    LifecycleState :=
  { st with willShutdown := true, store := some (stringifyReason reason) }

/-- Everything observable about one processed beforeUnload request: the
final service state, the ipc.send calls made (channel, windowId), and the
onShutdown events fired. -/
structure UnloadOutcome where
  finalState : LifecycleState
  sends : List (String × Nat)
  shutdownFired : List ShutdownReason
deriving DecidableEq, Repr

/-- The vscode:beforeUnload handler of _registerListeners: accept the
request, resolve the vetos through onBeforeUnload; on veto remove the
persisted key, reset _willShutdown and reply on the cancel channel; on
proceed fire onShutdown with the reason and reply on the ok channel. -/
def handleBeforeUnload (st : LifecycleState) (reason : ShutdownReason)
    (okChannel cancelChannel : String) (windowId : Nat)
    (vetos : List Veto) : UnloadOutcome :=
  let st1 := acceptRequest st reason
  let r := onBeforeUnload vetos
  if r.result then
    { finalState := { st1 with store := none, willShutdown := false }
      sends := [(cancelChannel, windowId)]
      shutdownFired := [] }
  else
    { finalState := st1
      sends := [(okChannel, windowId)]
      shutdownFired := [reason] }

/-- What the constructor computes from the stored value: the startup kind,
the store after the unconditional remove, and the _willShutdown field
(declared but never assigned in the constructor, hence undefined in
JavaScript, which reads as falsy: modelled as false). -/
structure ConstructResult where
  startupKind : StartupKind
  store : Option String
  willShutdown : Bool
deriving DecidableEq, Repr

/-- The classification the constructor performs on the integer read back
for the key: RELOAD gives ReloadedWindow, LOAD gives ReopenedWindow,
anything else (or absence) gives NewWindow. -/
def startupKindOf (lastShutdownReason : Option Nat) : StartupKind :=
  if lastShutdownReason = some (reasonCode ShutdownReason.RELOAD) then
    StartupKind.ReloadedWindow
  else if lastShutdownReason = some (reasonCode ShutdownReason.LOAD) then
    StartupKind.ReopenedWindow
  else
    StartupKind.NewWindow

/-- The LifecycleService constructor: read the integer under the key,
remove the key unconditionally, classify the value into the startup
kind. -/
def construct (stored : Option String) : ConstructResult :=
  { startupKind := startupKindOf (getInteger stored)
    store := none
    willShutdown := false }

/-- The boolean a settled promise contributes to lazyValue: its value on
success, true on failure (error treated like a veto). -/
def vetoSettlement (p : Except String Bool) : Bool :=
  match p with
  | Except.ok value => value
  | Except.error _ => true

/-- The message-service report a settled promise produces: one Error entry
on failure, nothing on success. -/
def errEntry (p : Except String Bool) : Option (Severity × String) :=
  match p with
  | Except.ok _ => none
  | Except.error e => some (Severity.Error, e)

lemma collectPromises_eq_none (vetos : List Veto)
    (h : Veto.immediate true ∈ vetos) : collectPromises vetos = none := by
  induction vetos with
  | nil => simp at h
  | cons v rest ih =>
    match v with
    | Veto.immediate true => rfl
    | Veto.immediate false =>
      have : Veto.immediate true ∈ rest := by
        rcases List.mem_cons.mp h with h1 | h1
        · exact absurd h1 (by simp)
        · exact h1
      simpa [collectPromises] using ih this
    | Veto.deferred p =>
      have : Veto.immediate true ∈ rest := by
        rcases List.mem_cons.mp h with h1 | h1
        · exact absurd h1 (by simp)
        · exact h1
      simp [collectPromises, ih this]

lemma collectPromises_eq_some (vetos : List Veto)
    (h : Veto.immediate true ∉ vetos) :
    collectPromises vetos = some (deferredSettlements vetos) := by
  induction vetos with
  | nil => rfl
  | cons v rest ih =>
    have hrest : Veto.immediate true ∉ rest := fun hr => h (List.mem_cons_of_mem _ hr)
    match v with
    | Veto.immediate true => exact absurd (List.mem_cons_self _ _) h
    | Veto.immediate false =>
      simpa [collectPromises, deferredSettlements] using ih hrest
    | Veto.deferred p =>
      simp [collectPromises, deferredSettlements, ih hrest]

lemma foldl_joinStep_fst (ps : List (Except String Bool)) :
    ∀ (b : Bool) (ms : List (Severity × String)),
      (List.foldl joinStep (b, ms) ps).1 = (b || ps.any vetoSettlement) := by
  induction ps with
  | nil => intro b ms; simp
  | cons p rest ih =>
    intro b ms
    match p with
    | Except.ok value => simp [joinStep, ih, vetoSettlement, Bool.or_assoc]
    | Except.error e => simp [joinStep, ih, vetoSettlement]

lemma foldl_joinStep_snd (ps : List (Except String Bool)) :
    ∀ (b : Bool) (ms : List (Severity × String)),
      (List.foldl joinStep (b, ms) ps).2 = ms ++ ps.filterMap errEntry := by
  induction ps with
  | nil => intro b ms; simp
  | cons p rest ih =>
    intro b ms
    match p with
    | Except.ok value => simp [joinStep, ih, errEntry]
    | Except.error e => simp [joinStep, ih, errEntry]

lemma settle_fst (ps : List (Except String Bool)) :
    (settle ps).1 = ps.any vetoSettlement := by
  simpa [settle] using foldl_joinStep_fst ps false []

lemma settle_snd (ps : List (Except String Bool)) :
    (settle ps).2 = ps.filterMap errEntry := by
  simpa [settle] using foldl_joinStep_snd ps false []

lemma onBeforeUnload_of_not_mem (vetos : List Veto)
    (h : Veto.immediate true ∉ vetos) :
    onBeforeUnload vetos =
      { result := (deferredSettlements vetos).any vetoSettlement
        awaited := deferredSettlements vetos
        reported := (deferredSettlements vetos).filterMap errEntry } := by
  match vetos with
  | [] => rfl
  | v :: rest =>
    simp only [onBeforeUnload, List.isEmpty_cons, Bool.false_eq_true, if_false,
      collectPromises_eq_some _ h]
    simp [settle_fst, settle_snd]

lemma deferredSettlements_all_ok_false (l : List Veto)
    (h : ∀ v ∈ l, v = Veto.immediate false ∨ v = Veto.deferred (Except.ok false)) :
    ∀ p ∈ deferredSettlements l, p = Except.ok false := by
  intro p hp
  simp only [deferredSettlements, List.mem_filterMap] at hp
  obtain ⟨v, hv, hveq⟩ := hp
  rcases h v hv with rfl | rfl
  · simp at hveq
  · simpa using hveq.symm

/-- C7: the empty objection list (no listener vetoed during the broadcast)
resolves to false, awaits nothing and reports nothing. -/
theorem onBeforeUnload_empty_resolves_false :
    onBeforeUnload [] = { result := false, awaited := [], reported := [] } :=
  rfl

/-- C2: an objection list containing an immediate true objection resolves
to true and joins no promise: the settlement of any deferred objection in
the list is not awaited. -/
theorem immediate_true_resolves_without_await (vetos : List Veto)
    (h : Veto.immediate true ∈ vetos) :
    (onBeforeUnload vetos).result = true ∧ (onBeforeUnload vetos).awaited = [] := by
  have hne : ¬vetos.isEmpty := by
    cases vetos with
    | nil => simp at h
    | cons v rest => simp
  simp [onBeforeUnload, hne, collectPromises_eq_none vetos h]

theorem immediate_true_resolves_without_await_witness :
    Veto.immediate true ∈
        [Veto.deferred (Except.ok false), Veto.immediate true] ∧
      (onBeforeUnload
            [Veto.deferred (Except.ok false), Veto.immediate true]).result = true ∧
      (onBeforeUnload
            [Veto.deferred (Except.ok false), Veto.immediate true]).awaited = [] :=
  ⟨by decide,
    immediate_true_resolves_without_await
      [Veto.deferred (Except.ok false), Veto.immediate true] (by decide)⟩

/-- C4: with no immediate true objection, every deferred objection is
joined (none is short-circuited away by a deferred true or a failure), and
the resolved value is false exactly when every settlement is a false value. -/
theorem no_immediate_true_awaits_all_deferred (vetos : List Veto)
    (h : Veto.immediate true ∉ vetos) :
    (onBeforeUnload vetos).awaited = deferredSettlements vetos ∧
      ((onBeforeUnload vetos).result = false ↔
        ∀ p ∈ deferredSettlements vetos, p = Except.ok false) := by
  rw [onBeforeUnload_of_not_mem vetos h]
  refine ⟨rfl, ?_⟩
  simp only [List.any_eq_false]
  constructor
  · intro hall p hp
    have := hall p hp
    match p with
    | Except.ok value => simpa [vetoSettlement] using this
    | Except.error e => simp [vetoSettlement] at this
  · intro hall p hp
    rw [hall p hp]
    simp [vetoSettlement]

theorem no_immediate_true_awaits_all_deferred_witness :
    Veto.immediate true ∉
        [Veto.immediate false, Veto.deferred (Except.ok true),
          Veto.deferred (Except.ok false)] ∧
      (onBeforeUnload
            [Veto.immediate false, Veto.deferred (Except.ok true),
              Veto.deferred (Except.ok false)]).awaited =
          deferredSettlements
            [Veto.immediate false, Veto.deferred (Except.ok true),
              Veto.deferred (Except.ok false)] ∧
      ((onBeforeUnload
              [Veto.immediate false, Veto.deferred (Except.ok true),
                Veto.deferred (Except.ok false)]).result = false ↔
        ∀ p ∈ deferredSettlements
              [Veto.immediate false, Veto.deferred (Except.ok true),
                Veto.deferred (Except.ok false)], p = Except.ok false) :=
  ⟨by decide,
    no_immediate_true_awaits_all_deferred
      [Veto.immediate false, Veto.deferred (Except.ok true),
        Veto.deferred (Except.ok false)] (by decide)⟩

/-- C3: with no immediate true objection, a single failing deferred
objection among otherwise-false objections makes the resolution a veto
(true) and sends exactly one report, with severity Error, to the message
service; onBeforeUnload is a total function, so the failure is absorbed
and never propagated to the caller. -/
theorem failing_deferred_vetoes_with_one_report
    (l1 l2 : List Veto) (e : String)
    (h : ∀ v ∈ l1 ++ l2,
      v = Veto.immediate false ∨ v = Veto.deferred (Except.ok false)) :
    (onBeforeUnload (l1 ++ Veto.deferred (Except.error e) :: l2)).result = true ∧
      (onBeforeUnload (l1 ++ Veto.deferred (Except.error e) :: l2)).reported =
        [(Severity.Error, e)] := by
  have h1 : ∀ v ∈ l1, v = Veto.immediate false ∨ v = Veto.deferred (Except.ok false) :=
    fun v hv => h v (List.mem_append_left _ hv)
  have h2 : ∀ v ∈ l2, v = Veto.immediate false ∨ v = Veto.deferred (Except.ok false) :=
    fun v hv => h v (List.mem_append_right _ hv)
  have hnm : Veto.immediate true ∉ l1 ++ Veto.deferred (Except.error e) :: l2 := by
    intro hmem
    rcases List.mem_append.mp hmem with hmem | hmem
    · rcases h1 _ hmem with h' | h' <;> simp at h'
    · rcases List.mem_cons.mp hmem with h' | hmem
      · simp at h'
      · rcases h2 _ hmem with h' | h' <;> simp at h'
  rw [onBeforeUnload_of_not_mem _ hnm]
  have hds : deferredSettlements (l1 ++ Veto.deferred (Except.error e) :: l2) =
      deferredSettlements l1 ++ Except.error e :: deferredSettlements l2 := by
    simp [deferredSettlements, List.filterMap_append]
  have hall1 := deferredSettlements_all_ok_false l1 h1
  have hall2 := deferredSettlements_all_ok_false l2 h2
  constructor
  · simp only [hds, List.any_append, List.any_cons, vetoSettlement]
    simp
  · simp only [hds, List.filterMap_append, List.filterMap_cons]
    have hf1 : (deferredSettlements l1).filterMap errEntry = [] := by
      rw [List.filterMap_eq_nil_iff]
      intro p hp
      rw [hall1 p hp]
      rfl
    have hf2 : (deferredSettlements l2).filterMap errEntry = [] := by
      rw [List.filterMap_eq_nil_iff]
      intro p hp
      rw [hall2 p hp]
      rfl
    simp [hf1, hf2, errEntry]

theorem failing_deferred_vetoes_with_one_report_witness :
    (∀ v ∈ [Veto.immediate false] ++ [Veto.deferred (Except.ok false)],
        v = Veto.immediate false ∨ v = Veto.deferred (Except.ok false)) ∧
      (onBeforeUnload
            ([Veto.immediate false] ++
              Veto.deferred (Except.error "boom") ::
                [Veto.deferred (Except.ok false)])).result = true ∧
      (onBeforeUnload
            ([Veto.immediate false] ++
              Veto.deferred (Except.error "boom") ::
                [Veto.deferred (Except.ok false)])).reported =
          [(Severity.Error, "boom")] :=
  ⟨by decide,
    failing_deferred_vetoes_with_one_report
      [Veto.immediate false] [Veto.deferred (Except.ok false)] "boom" (by decide)⟩

/-- C5: the startup-kind classification at construction is the pure total
function startupKindOf of the previously persisted reason: RELOAD gives
ReloadedWindow, LOAD gives ReopenedWindow, any other value or absence
gives NewWindow. -/
theorem startupKind_classification :
    (∀ stored : Option String,
        (construct stored).startupKind = startupKindOf (getInteger stored)) ∧
      startupKindOf (some (reasonCode ShutdownReason.RELOAD)) =
        StartupKind.ReloadedWindow ∧
      startupKindOf (some (reasonCode ShutdownReason.LOAD)) =
        StartupKind.ReopenedWindow ∧
      startupKindOf none = StartupKind.NewWindow ∧
      (∀ r : Option Nat,
        r ≠ some (reasonCode ShutdownReason.RELOAD) →
        r ≠ some (reasonCode ShutdownReason.LOAD) →
        startupKindOf r = StartupKind.NewWindow) := by
  refine ⟨fun stored => rfl, rfl, rfl, rfl, ?_⟩
  intro r h3 h4
  simp [startupKindOf, h3, h4]

theorem startupKind_classification_witness :
    startupKindOf (some (reasonCode ShutdownReason.QUIT)) =
      StartupKind.NewWindow :=
  startupKind_classification.2.2.2.2 (some (reasonCode ShutdownReason.QUIT))
    (by decide) (by decide)

/-- C6: the _willShutdown flag reads as false right after construction (the
field is never assigned there), is set to true when a beforeUnload request
is accepted for processing, and is reset to false in the final state when
the request is vetoed. -/
theorem willShutdown_flag_lifecycle :
    (∀ stored : Option String, (construct stored).willShutdown = false) ∧
      (∀ (st : LifecycleState) (reason : ShutdownReason),
        (acceptRequest st reason).willShutdown = true) ∧
      (∀ (st : LifecycleState) (reason : ShutdownReason)
          (okChannel cancelChannel : String) (windowId : Nat)
          (vetos : List Veto),
        (onBeforeUnload vetos).result = true →
        (handleBeforeUnload st reason okChannel cancelChannel windowId
            vetos).finalState.willShutdown = false) := by
  refine ⟨fun stored => rfl, fun st reason => rfl, ?_⟩
  intro st reason okChannel cancelChannel windowId vetos h
  simp [handleBeforeUnload, h]

theorem willShutdown_flag_lifecycle_witness :
    (onBeforeUnload [Veto.immediate true]).result = true ∧
      (handleBeforeUnload { willShutdown := false, store := none }
          ShutdownReason.QUIT "ok" "cancel" 7
          [Veto.immediate true]).finalState.willShutdown = false :=
  ⟨by decide,
    willShutdown_flag_lifecycle.2.2 { willShutdown := false, store := none }
      ShutdownReason.QUIT "ok" "cancel" 7 [Veto.immediate true] (by decide)⟩

/-- C1 counterexample: a completed shutdown request whose decision is
proceed leaves the persisted reason key present in the store (the handler
removes it only in the veto branch), refuting the claim that the key is
absent after any completed request. -/
theorem persistedReason_present_after_proceed :
    (handleBeforeUnload { willShutdown := false, store := none }
        ShutdownReason.CLOSE "ok" "cancel" 7 []).finalState.store ≠ none := by
  decide

/-- C1 amended: after a vetoed request the persisted reason key is absent;
after a proceeding request it remains present, holding the stringified
reason, and it is the next construction that removes it unconditionally. -/
theorem persistedReason_after_request
    (st : LifecycleState) (reason : ShutdownReason)
    (okChannel cancelChannel : String) (windowId : Nat) (vetos : List Veto) :
    ((onBeforeUnload vetos).result = true →
        (handleBeforeUnload st reason okChannel cancelChannel windowId
            vetos).finalState.store = none) ∧
      ((onBeforeUnload vetos).result = false →
        (handleBeforeUnload st reason okChannel cancelChannel windowId
            vetos).finalState.store = some (stringifyReason reason)) ∧
      (∀ stored : Option String, (construct stored).store = none) := by
  refine ⟨fun h => ?_, fun h => ?_, fun stored => rfl⟩
  · simp [handleBeforeUnload, h]
  · simp [handleBeforeUnload, h, acceptRequest]

theorem persistedReason_after_request_witness :
    (onBeforeUnload [Veto.immediate true]).result = true ∧
      (handleBeforeUnload { willShutdown := false, store := none }
          ShutdownReason.QUIT "ok" "cancel" 7
          [Veto.immediate true]).finalState.store = none :=
  ⟨by decide,
    (persistedReason_after_request { willShutdown := false, store := none }
        ShutdownReason.QUIT "ok" "cancel" 7 [Veto.immediate true]).1 (by decide)⟩

/-- C8: every processed request sends the window identifier exactly once,
on the cancel channel when the decision is veto and on the ok channel when
it is proceed, never on both. -/
theorem reply_on_exactly_one_channel
    (st : LifecycleState) (reason : ShutdownReason)
    (okChannel cancelChannel : String) (windowId : Nat) (vetos : List Veto) :
    (handleBeforeUnload st reason okChannel cancelChannel windowId
        vetos).sends =
      [(if (onBeforeUnload vetos).result then cancelChannel else okChannel,
        windowId)] := by
  cases h : (onBeforeUnload vetos).result <;> simp [handleBeforeUnload, h]

/-- C9: the onShutdown notification fires exactly once, carrying the
request's reason, when and only when the decision is proceed; a vetoed
request fires nothing. -/
theorem onShutdown_fires_iff_proceed
    (st : LifecycleState) (reason : ShutdownReason)
    (okChannel cancelChannel : String) (windowId : Nat) (vetos : List Veto) :
    (handleBeforeUnload st reason okChannel cancelChannel windowId
        vetos).shutdownFired =
      if (onBeforeUnload vetos).result then [] else [reason] := by
  cases h : (onBeforeUnload vetos).result <;> simp [handleBeforeUnload, h]

/-- C10: for every ShutdownReason, the stringified reason a proceeding
request persists reads back through getInteger as the same numeric code,
so the next construction's startup kind is the classification of exactly
the reason the previous instance shut down with. -/
theorem persistedReason_roundtrip
    (reason : ShutdownReason) (st : LifecycleState)
    (okChannel cancelChannel : String) (windowId : Nat) (vetos : List Veto)
    (h : (onBeforeUnload vetos).result = false) :
    getInteger (some (stringifyReason reason)) = some (reasonCode reason) ∧
      (construct
          ((handleBeforeUnload st reason okChannel cancelChannel windowId
              vetos).finalState.store)).startupKind =
        startupKindOf (some (reasonCode reason)) := by
  have hget : getInteger (some (stringifyReason reason)) = some (reasonCode reason) := by
    cases reason <;> decide
  refine ⟨hget, ?_⟩
  simp [handleBeforeUnload, h, acceptRequest, construct, hget]

theorem persistedReason_roundtrip_witness :
    (onBeforeUnload []).result = false ∧
      getInteger (some (stringifyReason ShutdownReason.RELOAD)) =
        some (reasonCode ShutdownReason.RELOAD) ∧
      (construct
          ((handleBeforeUnload { willShutdown := false, store := none }
              ShutdownReason.RELOAD "ok" "cancel" 7 []).finalState.store)).startupKind =
        startupKindOf (some (reasonCode ShutdownReason.RELOAD)) :=
  ⟨by decide,
    persistedReason_roundtrip ShutdownReason.RELOAD
      { willShutdown := false, store := none } "ok" "cancel" 7 [] (by decide)⟩

end Lifecycle
